import Mathlib

/-!
Verification of the Maya "Convert Movie" script (`convert_movie.py`).

This file shallow-embeds the pure computational core of the script:
the FFmpeg probe-log parsing (`getMovieProperties`), the even-size
normalization, the output-size parsing, the command builder
(`convertThread`), the validation stage (`convertMovie`), the settings
save/load round trip, and the worker poll loop, and proves or refutes
the frozen claims about them.

Python strings are modelled as Lean `String` (lists of characters);
Python integers as `Int`/`Nat`.  `round(x/2.0)` on a Python float uses
round-half-to-even; for the inputs that occur here (`|n| < 2^52`) the
division is exact, and the embedding uses the exact integer form.
-/

namespace ConvertMovie

/-- One entry of `FILE_FORMATS` (`convert_movie.py` line 39). -/
structure FileFormat where
  name : String
  extension : String
  is_movie : Bool
deriving DecidableEq, Repr

/-- `FILE_FORMATS` (line 42). -/
def FILE_FORMATS : List FileFormat :=
  [⟨"PNG", "png", false⟩, ⟨"JPEG", "jpg", false⟩, ⟨"MP4", "mp4", true⟩, ⟨"AVI", "avi", true⟩]

/-! ### Python string primitives used by the script -/

/-- `s.take pat.length == pat`: the character list `s` starts with `pat`. -/
def leadsWith (pat s : List Char) : Bool := s.take pat.length == pat

/-- Index of the first occurrence of `pat` in `s`, as Python `str.find`
(which returns -1 when absent; we return `none`). -/
def findSub (pat : List Char) : List Char → Option Nat
  | [] => if pat.isEmpty then some 0 else none
  | c :: rest =>
    if leadsWith pat (c :: rest) then some 0
    else (findSub pat rest).map (· + 1)

/-- `line.find('Video:') > 0` (line 127): the marker is present at a
strictly positive character index. -/
def markerAfterStart (marker line : String) : Bool :=
  match findSub marker.data line.data with
  | some i => decide (0 < i)
  | none => false

def videoLine (line : String) : Bool := markerAfterStart "Video:" line

def audioLine (line : String) : Bool := markerAfterStart "Audio:" line

/-- `re.sub('[^0-9]0x', '', line)` (line 128): delete every leftmost
non-overlapping occurrence of a non-digit character followed by `0x`. -/
def reSubNonDigit0x : List Char → List Char
  | a :: b :: c :: rest =>
    if !a.isDigit && b = '0' && c = 'x' then reSubNonDigit0x rest
    else a :: reSubNonDigit0x (b :: c :: rest)
  | l => l

/-- Numeric value of a digit string (fold as positional decimal). -/
def digitsToNat (cs : List Char) : Nat :=
  cs.foldl (fun acc c => acc * 10 + (c.toNat - 48)) 0

/-- Try to match `(\d+)x(\d+)` anchored at the head of `s`: a maximal
nonempty digit run, a literal `x`, and a second nonempty digit run. -/
def matchWHAt (s : List Char) : Option (Nat × Nat) :=
  let ds := s.takeWhile Char.isDigit
  if ds.isEmpty then none
  else
    match s.drop ds.length with
    | 'x' :: rest2 =>
      let ds2 := rest2.takeWhile Char.isDigit
      if ds2.isEmpty then none else some (digitsToNat ds, digitsToNat ds2)
    | _ => none

/-- `re.search('(\d+)x(\d+)', s)`: the leftmost match of two integers
separated by `x` (line 128). -/
def searchWH : List Char → Option (Nat × Nat)
  | [] => none
  | c :: rest =>
    match matchWHAt (c :: rest) with
    | some r => some r
    | none => searchWH rest

/-! ### Even normalization -/

/-- Lines 131-134 for a nonnegative width/height: if `n` is odd,
`int(round(n/2.0))*2` where Python `round` rounds half to even. -/
def normEvenNat (n : Nat) : Nat :=
  if n % 2 ≠ 0 then
    (if (n / 2) % 2 = 0 then n / 2 else n / 2 + 1) * 2
  else n

/-- The same even normalization on arbitrary integers, as applied to the
width/height text fields (lines 547-554, 561-568).  Lean's `%` and `/` on
`Int` are Euclidean/floor (matching Python's): for odd `n` (Python
`n % 2 != 0`), `n/2.0 = k + 0.5` exactly with `k = n / 2` the floor
division, and round-half-to-even takes `k` when `k` is even, else
`k + 1`. -/
def normalizeEven (n : Int) : Int :=
  if n % 2 ≠ 0 then
    (if (n / 2) % 2 = 0 then n / 2 else n / 2 + 1) * 2
  else n

/-! ### The probe-log parse (`getMovieProperties`, lines 121-144) -/

/-- Size extraction from one line (lines 128-135): filter the `0x` quirk,
match the first `WxH`, normalize both components to even. -/
def extractWH (line : String) : Option (Nat × Nat) :=
  (searchWH (reSubNonDigit0x line.data)).map (fun p => (normEvenNat p.1, normEvenNat p.2))

/-- One iteration of the parse loop body (lines 126-137) on `line`,
updating the `size` and `hasAudioStream` accumulators. -/
def scanVisit (line : String) (size : Option (Nat × Nat)) (audio : Option Bool) :
    Option (Nat × Nat) × Option Bool :=
  ((if size = none ∧ videoLine line then extractWH line else size),
   (if audio = none ∧ audioLine line then some true else audio))

/-- The loop `for i in range(len(lines) - 1, 0, -1)` (line 125), with the
early `break` once both properties are found (lines 138-139).  The fuel
argument is the current index `i`; index `0` terminates the loop without
being visited. -/
def scanFrom (lines : List String) : Nat → Option (Nat × Nat) → Option Bool →
    Option (Nat × Nat) × Option Bool
  | 0, size, audio => (size, audio)
  | i + 1, size, audio =>
    let r := scanVisit (lines.getD (i + 1) "") size audio
    if r.1.isSome ∧ r.2.isSome then r
    else scanFrom lines i r.1 r.2

/-- `getMovieProperties` from the log-parsing phase on: the log is read
and split on newlines into `lines`; a missing size raises (modelled as
`none`); a missing audio marker defaults to `false` (lines 140-144). -/
def getMovieProps (lines : List String) : Option (Nat × Nat × Bool) :=
  match scanFrom lines (lines.length - 1) none none with
  | (none, _) => none
  | (some (w, h), audio) => some (w, h, audio.getD false)

/-! Spec-side scan used to characterize the traversal order: the same
visit body, but over an explicit list of lines in the order visited. -/

def specScan : List String → Option (Nat × Nat) → Option Bool →
    Option (Nat × Nat) × Option Bool
  | [], size, audio => (size, audio)
  | l :: rest, size, audio =>
    let r := scanVisit l size audio
    if r.1.isSome ∧ r.2.isSome then r
    else specScan rest r.1 r.2

/-- The video extraction as used on a visited line: a result only when the
`Video:` marker sits at a positive index and a `WxH` pattern matches. -/
def vext (line : String) : Option (Nat × Nat) :=
  if videoLine line then extractWH line else none

/-! ### The command builder (`convertThread`, lines 682-744) -/

/-- A snapshotted input source as passed to `convertThread` — line 800
builds a dict with the literal input path and the boolean-coerced
audio flag. -/
structure Src where
  input : String
  hasAudioStream : Bool
deriving DecidableEq, Repr

/-- `c1.lower() == c2.lower()` on strings. -/
def lowerEqString (a b : String) : Bool :=
  a.data.map Char.toLower == b.data.map Char.toLower

/-- `isFileExtensionForMovie` (lines 676-680): look the extension up in
`FILE_FORMATS` case-insensitively; an unknown extension raises (`none`). -/
def isFileExtensionForMovie (ext : String) : Option Bool :=
  (FILE_FORMATS.find? (fun fmt => lowerEqString ext fmt.extension)).map (·.is_movie)

/-- Job-level `hasAudioStream` (lines 683-688): false unless the format is
a movie format, in which case the loop over sources is an `any`. -/
def jobHasAudioStream (isMovie : Bool) (srcs : List Src) : Bool :=
  isMovie && srcs.any (·.hasAudioStream)

/-- `needNullAudioSrc` (lines 689-694): only when the job has audio and
some source lacks it. -/
def jobNeedNullAudioSrc (isMovie : Bool) (srcs : List Src) : Bool :=
  jobHasAudioStream isMovie srcs && srcs.any (fun s => !s.hasAudioStream)

/-- The audio stream index chosen per source position in the concat clause
(line 711): the source's own index when it has audio, else the index of
the appended silence input.  The second argument is the running index. -/
def concatAudioIndices (nullIdx : Nat) : List Src → Nat → List Nat
  | [], _ => []
  | s :: rest, i =>
    (if s.hasAudioStream then i else nullIdx) :: concatAudioIndices nullIdx rest (i + 1)

/-- One `[vs<i>] [<a>:a] ` fragment of the audio concat clause (line 712). -/
def audioPart (vs a : Nat) : String := s!"[vs{vs}] [{a}:a] "

/-- The `concatFilter` accumulation for the audio case (lines 710-712). -/
def concatFilterAudio (srcs : List Src) (nullIdx : Nat) : String :=
  String.join (((concatAudioIndices nullIdx srcs 0).enum).map (fun p => audioPart p.1 p.2))

/-- The `concatFilter` accumulation for the no-audio case (lines 714-715). -/
def concatFilterVideo (srcs : List Src) : String :=
  String.join ((List.range srcs.length).map (fun i => s!"[vs{i}] "))

/-- Per-source scale clause for the multi-source case (line 707). -/
def scaleClause (i : Nat) (w h : Int) : String :=
  s!"[{i}:v] scale={w}:{h},setsar=1:1 [vs{i}]"

/-- Single-source scale clause (line 725). -/
def singleScale (w h : Int) : String := s!"[0:v] scale={w}:{h} [v]"

/-- MP4 pixel-format clause (line 731). -/
def formatClause (v : String) : String :=
  let vv := v ++ "v"
  s!"[{v}] format=yuv420p [{vv}]"

/-- `os.path.join` for one component (POSIX form): an absolute second
component wins; otherwise a separator is inserted unless the first
component is empty or already ends with one. -/
def pathJoin (a b : String) : String :=
  if b.data.head? = some '/' then b
  else if a = "" then b
  else if a.data.getLast? = some '/' then a ++ b
  else a ++ "/" ++ b

/-- The argument vector built by `convertThread` (lines 695-744), given
that the extension was recognized (`isMovie`) and the output size is
present (`w`, `h`).  `audioIn` is `"a"` on every path with job audio, so
the audio map argument is written directly as `"[a]"`. -/
def buildCmd (ff : String) (srcs : List Src) (outputDir : String) (w h : Int)
    (outputFileName : String) (frameNumDigits : Nat) (fileExtension : String)
    (isMovie : Bool) : List String :=
  let hasAudio := jobHasAudioStream isMovie srcs
  let needNull := jobNeedNullAudioSrc isMovie srcs
  let nullIdx := srcs.length
  let m := srcs.length
  let inputArgs := (srcs.map (fun s => ["-i", s.input])).flatten
  let silence := if needNull then ["-f", "lavfi", "-t", "0.1", "-i", "anullsrc"] else []
  let concatClause :=
    if hasAudio then concatFilterAudio srcs nullIdx ++ s!"concat=n={m}:v=1:a=1 [v] [a]"
    else concatFilterVideo srcs ++ s!"concat=n={m}:v=1:a=0 [v]"
  let filterGraph :=
    if 1 < m then ((List.range m).map (fun i => scaleClause i w h)) ++ [concatClause]
    else if hasAudio then [singleScale w h, "[0:a] null [a]"]
    else [singleScale w h]
  let videoIn := "v"
  let filterGraph :=
    if fileExtension = "mp4" then filterGraph ++ [formatClause videoIn] else filterGraph
  let videoIn := if fileExtension = "mp4" then videoIn ++ "v" else videoIn
  let cmd := [ff, "-nostdin", "-y"] ++ inputArgs ++ silence
      ++ ["-filter_complex", String.intercalate ";" filterGraph]
  let cmd := if 1 < m then cmd ++ ["-vsync", "2"] else cmd
  let cmd := cmd ++ ["-map", "[" ++ videoIn ++ "]"]
  let cmd := if hasAudio then cmd ++ ["-map", "[a]"] else cmd
  if fileExtension = "mp4" then
    cmd ++ ["-c:v", "libx264", "-c:a", "aac", "-movflags", "+faststart",
            pathJoin outputDir (outputFileName ++ ".mp4")]
  else if fileExtension = "avi" then
    cmd ++ ["-c:v", "rawvideo", "-pix_fmt", "yuv420p",
            pathJoin outputDir (outputFileName ++ ".avi")]
  else
    cmd ++ [pathJoin outputDir (outputFileName ++ ".%" ++ toString frameNumDigits ++ "d." ++ fileExtension)]

/-- `convertThread`'s command construction as a fallible function: an
unrecognized extension raises in `isFileExtensionForMovie` (line 684), and
an absent output size raises `TypeError` when the first scale clause
subscripts it (line 707 or 725), before any process is spawned. -/
def convertThreadCmd (ff : String) (srcs : List Src) (outputDir : String)
    (outputSize : Option (Int × Int)) (outputFileName : String)
    (frameNumDigits : Nat) (fileExtension : String) : Except String (List String) :=
  match isFileExtensionForMovie fileExtension with
  | none => .error ("unexpected file extension " ++ fileExtension)
  | some isMovie =>
    match outputSize with
    | none => .error "TypeError: absent output size subscripted in scale clause"
    | some (w, h) =>
      .ok (buildCmd ff srcs outputDir w h outputFileName frameNumDigits fileExtension isMovie)

/-! Shape of the built command when the job has no audio: no synthetic
silence input, no audio leg in the concat clause, no audio map. -/

def buildCmdNoAudio (ff : String) (srcs : List Src) (outputDir : String) (w h : Int)
    (outputFileName : String) (frameNumDigits : Nat) (fileExtension : String) : List String :=
  let m := srcs.length
  let inputArgs := (srcs.map (fun s => ["-i", s.input])).flatten
  let concatClause := concatFilterVideo srcs ++ s!"concat=n={m}:v=1:a=0 [v]"
  let filterGraph :=
    if 1 < m then ((List.range m).map (fun i => scaleClause i w h)) ++ [concatClause]
    else [singleScale w h]
  let videoIn := "v"
  let filterGraph :=
    if fileExtension = "mp4" then filterGraph ++ [formatClause videoIn] else filterGraph
  let videoIn := if fileExtension = "mp4" then videoIn ++ "v" else videoIn
  let cmd := [ff, "-nostdin", "-y"] ++ inputArgs
      ++ ["-filter_complex", String.intercalate ";" filterGraph]
  let cmd := if 1 < m then cmd ++ ["-vsync", "2"] else cmd
  let cmd := cmd ++ ["-map", "[" ++ videoIn ++ "]"]
  if fileExtension = "mp4" then
    cmd ++ ["-c:v", "libx264", "-c:a", "aac", "-movflags", "+faststart",
            pathJoin outputDir (outputFileName ++ ".mp4")]
  else if fileExtension = "avi" then
    cmd ++ ["-c:v", "rawvideo", "-pix_fmt", "yuv420p",
            pathJoin outputDir (outputFileName ++ ".avi")]
  else
    cmd ++ [pathJoin outputDir (outputFileName ++ ".%" ++ toString frameNumDigits ++ "d." ++ fileExtension)]

/-! Shape of the built command for a multi-source movie job with audio and
at least one audio-less source: exactly one synthetic silence input,
appended directly after the per-source inputs, and the audio concat leg. -/

def buildCmdConcatSilence (ff : String) (srcs : List Src) (outputDir : String) (w h : Int)
    (outputFileName : String) (fileExtension : String) : List String :=
  let m := srcs.length
  let inputArgs := (srcs.map (fun s => ["-i", s.input])).flatten
  let concatClause := concatFilterAudio srcs m ++ s!"concat=n={m}:v=1:a=1 [v] [a]"
  let filterGraph := ((List.range m).map (fun i => scaleClause i w h)) ++ [concatClause]
  let videoIn := "v"
  let filterGraph :=
    if fileExtension = "mp4" then filterGraph ++ [formatClause videoIn] else filterGraph
  let videoIn := if fileExtension = "mp4" then videoIn ++ "v" else videoIn
  [ff, "-nostdin", "-y"] ++ inputArgs ++ ["-f", "lavfi", "-t", "0.1", "-i", "anullsrc"]
    ++ ["-filter_complex", String.intercalate ";" filterGraph] ++ ["-vsync", "2"]
    ++ ["-map", "[" ++ videoIn ++ "]"] ++ ["-map", "[a]"]
    ++ (if fileExtension = "mp4" then
          ["-c:v", "libx264", "-c:a", "aac", "-movflags", "+faststart",
           pathJoin outputDir (outputFileName ++ ".mp4")]
        else
          ["-c:v", "rawvideo", "-pix_fmt", "yuv420p",
           pathJoin outputDir (outputFileName ++ ".avi")])

/-! ### Python `strip`, `int` and `str` -/

/-- Remove trailing whitespace characters (the right half of `strip()`). -/
def stripEnd : List Char → List Char
  | [] => []
  | c :: rest =>
    match stripEnd rest with
    | [] => if c.isWhitespace then [] else [c]
    | r => c :: r

/-- Python `s.strip()` (ASCII whitespace suffices for the fields here). -/
def pyStrip (s : String) : String := ⟨stripEnd (s.data.dropWhile Char.isWhitespace)⟩

/-- Nonempty all-digit strings parse positionally; anything else raises
`ValueError` (`none`). -/
def pyIntDigits (cs : List Char) : Option Int :=
  if !cs.isEmpty && cs.all Char.isDigit then some ((digitsToNat cs : Nat) : Int) else none

/-- Python `int(s)` for an already-stripped string: an optional sign
followed by one or more digits. -/
def pyInt (s : String) : Option Int :=
  if s.data.head? = some '-' then (pyIntDigits s.data.tail).map (fun z => -z)
  else if s.data.head? = some '+' then pyIntDigits s.data.tail
  else pyIntDigits s.data

/-- Decimal digits of a natural number, most significant first. -/
def natDec (n : Nat) : List Char :=
  if _h : n < 10 then [Nat.digitChar n]
  else natDec (n / 10) ++ [Nat.digitChar (n % 10)]
termination_by n
decreasing_by exact Nat.div_lt_self (by omega) (by omega)

/-- Python `str(n)` for an integer. -/
def intStr (n : Int) : String :=
  ⟨if n < 0 then '-' :: natDec n.natAbs else natDec n.natAbs⟩

/-! ### Output-size parsing (`parseOutputSize`, lines 767-777) -/

/-- The three possible results: Python `None` (an empty field), Python
`False` (non-numeric text), or a pair of integers. -/
inductive SizeParse where
  | noSize
  | badSize
  | size (w h : Int)
deriving DecidableEq, Repr

def parseOutputSize (widthText heightText : String) : SizeParse :=
  let widthValue := pyStrip widthText
  let heightValue := pyStrip heightText
  if widthValue.length = 0 ∨ heightValue.length = 0 then .noSize
  else
    match pyInt widthValue, pyInt heightValue with
    | some w, some h => .size w h
    | _, _ => .badSize

/-! ### UI state, probing and validation (`run`, `readInputMovieProperties`,
`convertMovie`) -/

/-- One source row's state: the input text field plus the cached probe
results (`source['size']`, `source['hasAudioStream']`). -/
structure SourceRow where
  inputText : String
  size : Option (Int × Int)
  hasAudioStream : Option Bool
deriving DecidableEq, Repr

/-- The filesystem/process environment the script consults: command
validity, glob matching, path existence, and the outcome of a probe
(`none` = probe failed). -/
structure Env where
  validCommand : String → Bool
  globMatches : String → Bool
  pathExists : String → Bool
  isDirectory : String → Bool
  probe : String → Option ((Int × Int) × Bool)

/-- The UI fields read by `saveSettings` and `convertMovie`.  The two
option menus hold 1-based selections (frame digits 1-4, format 1-4). -/
structure UIState where
  ffmpegText : String
  sources : List SourceRow
  outputDirText : String
  outputFileNameText : String
  numDigitsSelect : Nat
  fileFormatSelect : Nat
  widthText : String
  heightText : String
  keepProportions : Bool
deriving DecidableEq, Repr

/-- `inputPathToGlob` (lines 779-785): replace the span from the first `%`
through the first following `d` by `*`; if no such pair exists the path is
returned unchanged.  (A `d` after a later `%` is also after the first one,
so scanning only the first `%` is equivalent to the nested loops.) -/
def dropToD : List Char → Option (List Char)
  | [] => none
  | c :: rest => if c = 'd' then some rest else dropToD rest

def globSplit : List Char → Option (List Char × List Char)
  | [] => none
  | c :: rest =>
    if c = '%' then (dropToD rest).map (fun post => ([], post))
    else (globSplit rest).map (fun p => (c :: p.1, p.2))

def inputPathToGlob (p : String) : String :=
  match globSplit p.data with
  | some (pre, post) => ⟨pre ++ '*' :: post⟩
  | none => p

/-- `readInputMovieProperties` (lines 304-329) restricted to its effect on
the source record: on any failure (invalid command, empty/unmatched path,
probe failure) both cached fields become `None`. -/
def readInputMovieProperties (env : Env) (ffmpegText : String) (row : SourceRow) : SourceRow :=
  if !env.validCommand ffmpegText then { row with size := none, hasAudioStream := none }
  else if row.inputText.length = 0 || !env.globMatches (inputPathToGlob row.inputText) then
    { row with size := none, hasAudioStream := none }
  else
    match env.probe row.inputText with
    | some (wh, audio) => { row with size := some wh, hasAudioStream := some audio }
    | none => { row with size := none, hasAudioStream := none }

/-- `bool(x)` on an optional boolean: `bool(None) = False`. -/
def pyBool : Option Bool → Bool
  | none => false
  | some b => b

/-- The snapshot loop of `convertMovie` (lines 796-800). -/
def snapshotSources (rows : List SourceRow) : List Src :=
  rows.map (fun r => ⟨r.inputText, pyBool r.hasAudioStream⟩)

/-- 1-based index of the first source whose path is empty or matches no
file (lines 801-806). -/
def firstInvalidIdx (env : Env) : List SourceRow → Nat → Option Nat
  | [], _ => none
  | r :: rest, i =>
    if r.inputText.length = 0 || !env.globMatches (inputPathToGlob r.inputText) then some (i + 1)
    else firstInvalidIdx env rest (i + 1)

inductive Refusal where
  | ffmpegNotFound
  | invalidInputPath (sourceNum : Nat)
  | missingOutputDirectory
  | outputDirectoryMissing
  | outputDirectoryNotDir
  | invalidWidthHeight
  | missingFileName
deriving DecidableEq, Repr

/-- The arguments handed to the worker thread (lines 850-852). -/
structure Job where
  ffmpegCommand : String
  inputSources : List Src
  outputDir : String
  outputSize : Option (Int × Int)
  outputFileName : String
  frameNumDigits : Nat
  fileExtension : String
deriving DecidableEq, Repr

/-- The validation stage of `convertMovie` (lines 787-853): every modal
refusal, in source order, and otherwise the spawned job.  Note that a
`None` output size (`SizeParse.noSize`) is NOT refused — only the `False`
sentinel is (line 831).  The format menu yields selections 1-4, so the
list lookup is modelled with a default. -/
def convertMovie (env : Env) (s : UIState) : Except Refusal Job :=
  if !env.validCommand s.ffmpegText then .error .ffmpegNotFound
  else
    match firstInvalidIdx env s.sources 0 with
    | some i => .error (.invalidInputPath i)
    | none =>
      let outputDir := s.outputDirText
      let outputSize := parseOutputSize s.widthText s.heightText
      let outputFileName := pyStrip s.outputFileNameText
      let fileExtension := (FILE_FORMATS.getD (s.fileFormatSelect - 1) ⟨"PNG", "png", false⟩).extension
      if outputDir.length = 0 then .error .missingOutputDirectory
      else if !env.pathExists outputDir then .error .outputDirectoryMissing
      else if !env.isDirectory outputDir then .error .outputDirectoryNotDir
      else if outputSize = .badSize then .error .invalidWidthHeight
      else if outputFileName.length = 0 then .error .missingFileName
      else .ok { ffmpegCommand := s.ffmpegText,
                 inputSources := snapshotSources s.sources,
                 outputDir := outputDir,
                 outputSize := match outputSize with | .size w h => some (w, h) | _ => none,
                 outputFileName := outputFileName,
                 frameNumDigits := s.numDigitsSelect,
                 fileExtension := fileExtension }

/-! ### Settings store (`saveSettings` lines 168-179, `loadSettings`
lines 181-226) -/

/-- The JSON object written by `saveSettings`; every key is always
present. -/
structure Settings where
  inputSources : List String
  outputDirectory : String
  outputSize : SizeParse
  keepProportions : Bool
  outputFileName : String
  frameNumDigits : Nat
  fileFormat : String
deriving DecidableEq, Repr

def saveSettings (s : UIState) : Settings :=
  { inputSources := s.sources.map (·.inputText),
    outputDirectory := s.outputDirText,
    outputSize := parseOutputSize s.widthText s.heightText,
    keepProportions := s.keepProportions,
    outputFileName := pyStrip s.outputFileNameText,
    frameNumDigits := s.numDigitsSelect,
    fileFormat := (FILE_FORMATS.getD (s.fileFormatSelect - 1) ⟨"PNG", "png", false⟩).name }

/-- A just-created source row (`setNumSources`, lines 513-538). -/
def freshRow : SourceRow := ⟨"", none, none⟩

/-- `setNumSources n` on the row list: truncate, or append fresh rows. -/
def resizeRows (rows : List SourceRow) (n : Nat) : List SourceRow :=
  rows.take n ++ List.replicate (n - rows.length) freshRow

/-- Write the loaded input texts into the (resized) rows (lines 192-195). -/
def setTexts (texts : List String) (rows : List SourceRow) : List SourceRow :=
  List.zipWith (fun t r => { r with inputText := t }) texts rows

/-- `loadSettings` applied to a settings object produced by `saveSettings`
(so every key is present): resize and fill the source rows, re-probe each
source, and set the remaining fields.  A falsy `outputSize` (`None` or
`False`) leaves the width/height fields unchanged (lines 218-222); an
unknown format name is ignored (lines 211-217). -/
def loadSettings (env : Env) (st : Settings) (s : UIState) : UIState :=
  let rows := setTexts st.inputSources (resizeRows s.sources st.inputSources.length)
  let rows := rows.map (fun r => readInputMovieProperties env s.ffmpegText r)
  { s with
    sources := rows,
    outputDirText := st.outputDirectory,
    outputFileNameText := st.outputFileName,
    numDigitsSelect := st.frameNumDigits,
    fileFormatSelect :=
      match (FILE_FORMATS.map (·.name)).findIdx? (fun nm => nm == st.fileFormat) with
      | some i => i + 1
      | none => s.fileFormatSelect,
    widthText := match st.outputSize with | .size w _ => intStr w | _ => s.widthText,
    heightText := match st.outputSize with | .size _ h => intStr h | _ => s.heightText,
    keepProportions := st.keepProportions }

/-- The UI state as constructed by `run` before any interaction: one empty
source row, empty directory and size fields, file name `frame`, 4 frame
digits, format PNG. -/
def freshUI : UIState :=
  { ffmpegText := "", sources := [freshRow], outputDirText := "",
    outputFileNameText := "frame", numDigitsSelect := 4, fileFormatSelect := 1,
    widthText := "", heightText := "", keepProportions := true }

/-- An environment in which every command is valid, every glob matches,
every path is a directory, and every probe fails. -/
def allTrueEnv : Env :=
  ⟨fun _ => true, fun _ => true, fun _ => true, fun _ => true, fun _ => none⟩

/-! ### The worker poll loop (`convertThread`, lines 749-765) -/

/-- The UI-visible effects the worker can trigger. -/
inductive UIAction where
  | enableControls
  | showSuccessDialog
  | showFailureDialog
  | appendLogContent
  | terminateProcess
deriving DecidableEq, Repr

/-- `endWithCancel` (lines 666-667): re-enable the UI, no dialog. -/
def endWithCancelEffects : List UIAction := [.enableControls]

/-- `endWithSuccess` (lines 659-664). -/
def endWithSuccessEffects : List UIAction := [.enableControls, .showSuccessDialog]

/-- `endWithFailure` (lines 669-674). -/
def endWithFailureEffects : List UIAction := [.enableControls, .showFailureDialog]

inductive JobOutcome where
  | cancelled
  | succeeded
  | failed
  | stillRunning
deriving DecidableEq, Repr

/-- The poll loop, driven by the per-iteration observations (cancellation
flag, `p.poll()` result).  On cancellation: marshal `endWithCancel`, then
`p.terminate()`, then break — the log file is not read.  On exit: read the
log and append it, then marshal the success or failure handler. -/
def pollLoop : List (Bool × Option Int) → JobOutcome × List UIAction
  | [] => (.stillRunning, [])
  | (cancelSet, exitCode) :: rest =>
    if cancelSet then (.cancelled, endWithCancelEffects ++ [.terminateProcess])
    else
      match exitCode with
      | some code =>
        if code = 0 then (.succeeded, .appendLogContent :: endWithSuccessEffects)
        else (.failed, .appendLogContent :: endWithFailureEffects)
      | none => pollLoop rest

/-! ### Helper lemmas about the format table -/

lemma formats_lookup : ∀ fmt ∈ FILE_FORMATS, isFileExtensionForMovie fmt.extension = some fmt.is_movie := by
  intro fmt h
  fin_cases h <;> rfl

lemma nonmovie_ext : ∀ fmt ∈ FILE_FORMATS, fmt.is_movie = false →
    fmt.extension ≠ "mp4" ∧ fmt.extension ≠ "avi" := by
  intro fmt h hmv
  fin_cases h <;> simp_all

lemma movie_ext : ∀ fmt ∈ FILE_FORMATS, fmt.is_movie = true →
    fmt.extension = "mp4" ∨ fmt.extension = "avi" := by
  intro fmt h hmv
  fin_cases h <;> simp_all

/-! ### Claim C1 -/

/-- A UI state in which the single source's path exists but its probe
failed (no cached size or audio), both size fields are empty, and every
other validated field is fine; the selected format is MP4. -/
def c1State : UIState :=
  { ffmpegText := "ffmpeg", sources := [⟨"in.mov", none, none⟩], outputDirText := "out",
    outputFileNameText := "frame", numDigitsSelect := 4, fileFormatSelect := 3,
    widthText := "", heightText := "", keepProportions := true }

/-- C1: with both size fields empty (`parseOutputSize` = `None`) and no
probed source size, `convertMovie` does NOT refuse: validation passes and
the worker is spawned with an absent output size, and the command builder
then raises a `TypeError` evaluating the scale clause.  The claim says the
conversion is refused before this stage; the code contradicts it. -/
theorem c1_output_size_bug :
    parseOutputSize "" "" = .noSize
    ∧ convertMovie allTrueEnv c1State
        = .ok ⟨"ffmpeg", [⟨"in.mov", false⟩], "out", none, "frame", 4, "mp4"⟩
    ∧ convertThreadCmd "ffmpeg" [⟨"in.mov", false⟩] "out" none "frame" 4 "mp4"
        = .error "TypeError: absent output size subscripted in scale clause" :=
  ⟨rfl, rfl, rfl⟩

/-! ### Claim C2 -/

/-- C2 counterexample: for digit count 4 and base name `frame`, the PNG
output path argument is `out/frame.%4d.png` — a width-only `%4d` field,
not the zero-padded `%04d` pattern the claim states. -/
theorem c2_counterexample :
    ((convertThreadCmd "ffmpeg" [⟨"a.mov", false⟩] "out" (some (640, 480)) "frame" 4
        "png").toOption.map (fun cmd => cmd.getLast?)) = some (some "out/frame.%4d.png")
    ∧ "out/frame.%4d.png" ≠ "out/frame.%04d.png" :=
  ⟨rfl, by decide⟩

/-- C2 (amended): for every non-movie format (PNG/JPEG), the built
command's final argument is the numbered output path
`<dir>/<name>.%<digits>d.<ext>` — the printf field has the digit count as
width but no zero flag. -/
theorem c2_numbered_pattern :
    ∀ (fmt : FileFormat) (srcs : List Src) (ff dir name : String) (w h : Int)
      (digits : Nat) (cmd : List String),
      fmt ∈ FILE_FORMATS → fmt.is_movie = false →
      convertThreadCmd ff srcs dir (some (w, h)) name digits fmt.extension = .ok cmd →
      cmd.getLast? = some (pathJoin dir (name ++ ".%" ++ toString digits ++ "d." ++ fmt.extension)) := by
  intro fmt srcs ff dir name w h digits cmd hmem hmv hok
  obtain ⟨h1, h2⟩ := nonmovie_ext fmt hmem hmv
  simp only [convertThreadCmd, formats_lookup fmt hmem] at hok
  injection hok with hok
  subst hok
  simp only [buildCmd, if_neg h1, if_neg h2]
  exact List.getLast?_concat _

/-- C2 witness at digit count 4, name `frame`, a single PNG source. -/
theorem c2_witness :
    (["ffmpeg", "-nostdin", "-y", "-i", "a.mov", "-filter_complex",
      "[0:v] scale=640:480 [v]", "-map", "[v]", "out/frame.%4d.png"] : List String).getLast?
      = some (pathJoin "out" ("frame" ++ ".%" ++ toString 4 ++ "d." ++ "png")) :=
  c2_numbered_pattern ⟨"PNG", "png", false⟩ [⟨"a.mov", false⟩] "ffmpeg" "out" "frame"
    640 480 4 _ (by decide) rfl rfl

/-! ### Claim C5 -/

lemma scanFrom_append (l : List String) (x : String) :
    ∀ (i : Nat) (s : Option (Nat × Nat)) (a : Option Bool), i < l.length →
      scanFrom (l ++ [x]) i s a = scanFrom l i s a := by
  intro i
  induction i with
  | zero => intro s a _; rfl
  | succ n ih =>
    intro s a hlt
    have hgd : (l ++ [x]).getD (n + 1) "" = l.getD (n + 1) "" :=
      List.getD_append _ _ _ _ hlt
    simp only [scanFrom, hgd]
    split
    · rfl
    · exact ih _ _ (by omega)

/-- The index loop from `len - 1` down to `1` visits exactly the list
`(lines.drop 1).reverse`, i.e. the lines after the first, most recent
first. -/
lemma scanFrom_eq_specScan (lines : List String) :
    ∀ (s : Option (Nat × Nat)) (a : Option Bool),
      scanFrom lines (lines.length - 1) s a = specScan ((lines.drop 1).reverse) s a := by
  induction lines using List.reverseRecOn with
  | nil => intro s a; rfl
  | append_singleton l x ih =>
    intro s a
    cases l with
    | nil => rfl
    | cons y ys =>
      have hlen : ((y :: ys) ++ [x]).length - 1 = ys.length + 1 := by simp
      have hgd : ((y :: ys) ++ [x]).getD (ys.length + 1) "" = x := by
        rw [List.getD_append_right _ _ _ _ (by simp)]
        simp
      rw [hlen, show (((y :: ys) ++ [x]).drop 1).reverse = x :: ((y :: ys).drop 1).reverse by simp]
      simp only [scanFrom, specScan, hgd]
      split
      · rfl
      · rw [scanFrom_append (y :: ys) x ys.length _ _ (by simp)]
        have := ih (scanVisit x s a).1 (scanVisit x s a).2
        simpa using this

/-- The early `break` never changes the result: the scan selects the first
visited line yielding a video extraction, and reports audio iff any
visited line carries the audio marker. -/
lemma specScan_characterize (vs : List String) :
    ∀ (s : Option (Nat × Nat)) (a : Option Bool),
      specScan vs s a
        = ((match s with | some z => some z | none => vs.findSome? vext),
           (match a with | some b => some b | none => if vs.any audioLine then some true else none)) := by
  induction vs with
  | nil => intro s a; cases s <;> cases a <;> simp [specScan]
  | cons l rest ih =>
    intro s a
    rcases s with _ | z <;> rcases a with _ | b <;>
      by_cases hV : videoLine l <;> by_cases hA : audioLine l <;>
        rcases hE : extractWH l with _ | p <;>
          simp [specScan, scanVisit, vext, hV, hA, hE, ih, List.findSome?_cons, List.any_cons]

/-- C5 (amended): the probe parses the log lines in reverse order but
never examines the first line (the loop stops at index 1): the size comes
from the last line in file order, the first line excluded, whose `Video:`
marker sits at a positive index and from which a `WxH` pattern can be
extracted, and audio presence is the existence, among those same lines, of
one with an `Audio:` marker at a positive index. -/
theorem c5_reverse_scan :
    ∀ lines : List String,
      getMovieProps lines
        = (match ((lines.drop 1).reverse).findSome? vext with
           | none => none
           | some (w, h) => some (w, h, ((lines.drop 1).reverse).any audioLine)) := by
  intro lines
  rw [getMovieProps, scanFrom_eq_specScan, specScan_characterize]
  rcases hf : ((lines.drop 1).reverse).findSome? vext with _ | ⟨w, hh⟩ <;>
    rcases ha : ((lines.drop 1).reverse).any audioLine <;> simp [hf, ha]

/-- C5 counterexample: a two-line log whose FIRST line contains a
perfectly extractable `Video:` diagnostic is rejected (`None`), because
the loop `range(len - 1, 0, -1)` never reaches index 0 — contradicting
"every line of the log, including the first, is examined if needed". -/
theorem c5_counterexample :
    getMovieProps [" Video: 640x480", "x"] = none
    ∧ videoLine " Video: 640x480" = true
    ∧ vext " Video: 640x480" = some (640, 480) :=
  ⟨rfl, rfl, rfl⟩

/-! ### Claim C6 -/

/-- The filter the claim describes: delete every occurrence of a DIGIT
character immediately followed by `0x` (this is what the regex
`[0-9]0x` would do, not what the code's `[^0-9]0x` does). -/
def subDigit0x : List Char → List Char
  | a :: b :: c :: rest =>
    if a.isDigit && b = '0' && c = 'x' then subDigit0x rest
    else a :: subDigit0x (b :: c :: rest)
  | l => l

/-- Does a non-digit-then-`0x` occurrence start here? -/
def nonDigit0xAt : List Char → Bool
  | a :: b :: c :: _ => !a.isDigit && b = '0' && c = 'x'
  | _ => false

/-- Spec-side phrasing of the amended filter: scanning left to right,
remove each occurrence of a non-digit character immediately followed by
`0x` (the three characters together), continuing after the removed span —
i.e. leftmost non-overlapping occurrences. -/
def removeOccurrences : List Char → List Char
  | [] => []
  | c :: rest =>
    if nonDigit0xAt (c :: rest) then removeOccurrences (rest.drop 2)
    else c :: removeOccurrences rest
termination_by cs => cs.length
decreasing_by all_goals (simp; try omega)

lemma reSubNonDigit0x_cons3 (a b c : Char) (rest : List Char) :
    reSubNonDigit0x (a :: b :: c :: rest)
      = if !a.isDigit && b = '0' && c = 'x' then reSubNonDigit0x rest
        else a :: reSubNonDigit0x (b :: c :: rest) := rfl

lemma nonDigit0xAt_cons3 (a b c : Char) (rest : List Char) :
    nonDigit0xAt (a :: b :: c :: rest) = (!a.isDigit && b = '0' && c = 'x') := rfl

lemma reSub_eq_removeOccurrences : ∀ cs, reSubNonDigit0x cs = removeOccurrences cs := by
  intro cs
  induction cs using reSubNonDigit0x.induct with
  | case1 a b c rest hcond ih =>
    rw [reSubNonDigit0x_cons3, if_pos hcond, removeOccurrences,
      if_pos (by rw [nonDigit0xAt_cons3]; exact hcond)]
    exact ih
  | case2 a b c rest hcond ih =>
    rw [reSubNonDigit0x_cons3, if_neg hcond, removeOccurrences,
      if_neg (by rw [nonDigit0xAt_cons3]; exact hcond), ih]
  | case3 l hshape =>
    match l, hshape with
    | [], _ => rw [removeOccurrences]; rfl
    | [a], _ => rw [removeOccurrences, if_neg (by simp [nonDigit0xAt]), removeOccurrences]; rfl
    | [a, b], _ =>
      rw [removeOccurrences, if_neg (by simp [nonDigit0xAt]), removeOccurrences,
        if_neg (by simp [nonDigit0xAt]), removeOccurrences]
      rfl
    | a :: b :: c :: rest, hshape => exact absurd rfl (hshape a b c rest)

/-- C6 (amended): the width/height extraction removes every leftmost
non-overlapping occurrence of a NON-digit character immediately followed
by `0x` (the preceding character is deleted along with the `0x`), and only
then matches the first `<integer>x<integer>` pattern in the filtered line
(then normalizes both components to even). -/
theorem c6_filter_then_match :
    ∀ line : String,
      extractWH line
        = (searchWH (removeOccurrences line.data)).map
            (fun p => (normEvenNat p.1, normEvenNat p.2)) := by
  intro line
  rw [extractWH, reSub_eq_removeOccurrences]

/-- C6 counterexample: on a realistic FFmpeg Video diagnostic carrying the
hex codec tag `0x31637661`, the code's non-digit filter lets the match
find `1920x1080`, while the claim's digit filter (which removes nothing
here) would make the match stop at `0x31637661`, yielding `(0, 31637661)`. -/
theorem c6_counterexample :
    searchWH (reSubNonDigit0x "Video: h264 (avc1 / 0x31637661), yuv420p, 1920x1080".data)
      = some (1920, 1080)
    ∧ searchWH (subDigit0x "Video: h264 (avc1 / 0x31637661), yuv420p, 1920x1080".data)
      = some (0, 31637661)
    ∧ (some (1920, 1080) : Option (Nat × Nat)) ≠ some (0, 31637661) :=
  ⟨rfl, rfl, by decide⟩

/-! ### Claim C7 -/

lemma pollLoop_cancel (pre post : List (Bool × Option Int)) (r : Option Int)
    (h : ∀ o ∈ pre, o = (false, none)) :
    pollLoop (pre ++ (true, r) :: post) = (.cancelled, [.enableControls, .terminateProcess]) := by
  induction pre with
  | nil => rfl
  | cons o rest ih =>
    have ho : o = (false, none) := h o (List.mem_cons_self _ _)
    subst ho
    simpa [pollLoop] using ih (fun x hx => h x (List.mem_cons_of_mem _ hx))

/-- C7 counterexample: when the cancellation flag is observed, the worker
marshals `endWithCancel` and terminates the process, but never reads or
displays the log content — the claim's "reads and displays whatever log
content exists so far" does not happen on the cancel path. -/
theorem c7_counterexample :
    pollLoop [(true, none)] = (.cancelled, [.enableControls, .terminateProcess])
    ∧ UIAction.appendLogContent ∉ (pollLoop [(true, none)]).2 :=
  ⟨rfl, by decide⟩

/-- C7 (amended): if the cancellation flag is set before any process exit
is observed, the loop ends `Cancelled` at the first poll that sees the
flag (independently of later observations), the process is asked to
terminate, the UI controls are re-enabled, and neither a failure dialog
nor any log display occurs. -/
theorem c7_cancellation :
    ∀ (pre post : List (Bool × Option Int)) (r : Option Int),
      (∀ o ∈ pre, o = (false, none)) →
      pollLoop (pre ++ (true, r) :: post) = (.cancelled, [.enableControls, .terminateProcess])
      ∧ UIAction.appendLogContent ∉ (pollLoop (pre ++ (true, r) :: post)).2
      ∧ UIAction.showFailureDialog ∉ (pollLoop (pre ++ (true, r) :: post)).2 := by
  intro pre post r h
  have heq := pollLoop_cancel pre post r h
  refine ⟨heq, ?_, ?_⟩ <;> rw [heq] <;> decide

/-- C7 witness: one quiet poll, then cancellation (even though the process
would have exited successfully at that very poll). -/
theorem c7_witness :
    pollLoop [(false, none), (true, some 0)] = (.cancelled, [.enableControls, .terminateProcess])
    ∧ UIAction.appendLogContent ∉ (pollLoop [(false, none), (true, some 0)]).2
    ∧ UIAction.showFailureDialog ∉ (pollLoop [(false, none), (true, some 0)]).2 :=
  c7_cancellation [(false, none)] [] (some 0) (by decide)

/-! ### Claim C8 -/

/-- C8: the even normalization always returns an even integer at distance
at most 1 (for odd input both neighbours are even, so any rounding of the
half gives a nearest even value), and the `Nat` form used by the probe
agrees with the `Int` form used by the width/height fields. -/
theorem c8_even_normalization :
    (∀ n : Int, Even (normalizeEven n) ∧ |normalizeEven n - n| ≤ 1)
    ∧ (∀ m : Nat, (normEvenNat m : Int) = normalizeEven (m : Int)) := by
  constructor
  · intro n
    unfold normalizeEven
    by_cases h : n % 2 = 0
    · rw [if_neg (by omega)]
      exact ⟨⟨n / 2, by omega⟩, by rw [abs_le]; omega⟩
    · rw [if_pos (by omega)]
      by_cases hk : (n / 2) % 2 = 0
      · rw [if_pos hk]
        exact ⟨⟨n / 2, by ring⟩, by rw [abs_le]; omega⟩
      · rw [if_neg hk]
        exact ⟨⟨n / 2 + 1, by ring⟩, by rw [abs_le]; omega⟩
  · intro m
    have h1 : ((m : Int)) % 2 = ((m % 2 : Nat) : Int) := by omega
    have h2 : ((m : Int)) / 2 = ((m / 2 : Nat) : Int) := by omega
    unfold normEvenNat normalizeEven
    rw [h1, h2]
    by_cases h : m % 2 = 0
    · rw [if_neg (by omega : ¬ m % 2 ≠ 0), if_neg (by omega : ¬ ((m % 2 : Nat) : Int) ≠ 0)]
    · rw [if_pos (by omega : m % 2 ≠ 0), if_pos (by omega : ((m % 2 : Nat) : Int) ≠ 0)]
      by_cases hk : m / 2 % 2 = 0
      · rw [if_pos hk, if_pos (by omega : ((m / 2 : Nat) : Int) % 2 = 0)]
        push_cast
        ring
      · rw [if_neg hk, if_neg (by omega : ¬ ((m / 2 : Nat) : Int) % 2 = 0)]
        push_cast
        ring

/-! ### Claim C9: number and strip round trips -/

lemma digitChar_toNat {d : Nat} (h : d < 10) : (Nat.digitChar d).toNat = 48 + d := by
  interval_cases d <;> decide

lemma digitChar_isDigit {d : Nat} (h : d < 10) : (Nat.digitChar d).isDigit = true := by
  interval_cases d <;> decide

lemma isDigit_ne_minus {c : Char} (h : c.isDigit = true) : c ≠ '-' := by
  rintro rfl
  exact absurd h (by decide)

lemma isDigit_ne_plus {c : Char} (h : c.isDigit = true) : c ≠ '+' := by
  rintro rfl
  exact absurd h (by decide)

lemma isDigit_not_ws {c : Char} (h : c.isDigit = true) : c.isWhitespace = false := by
  by_contra hw
  rw [Bool.not_eq_false] at hw
  simp only [Char.isWhitespace, Bool.or_eq_true, decide_eq_true_eq] at hw
  rcases hw with ((rfl | rfl) | rfl) | rfl <;> exact absurd h (by decide)

lemma digitsToNat_append (cs : List Char) (c : Char) :
    digitsToNat (cs ++ [c]) = digitsToNat cs * 10 + (c.toNat - 48) := by
  simp [digitsToNat, List.foldl_append]

lemma natDec_spec : ∀ n : Nat,
    digitsToNat (natDec n) = n ∧ (∀ c ∈ natDec n, c.isDigit = true) ∧ natDec n ≠ [] := by
  intro n
  induction n using Nat.strong_induction_on with
  | _ n ih =>
    by_cases h : n < 10
    · rw [natDec, dif_pos h]
      refine ⟨?_, ?_, by simp⟩
      · simp only [digitsToNat, List.foldl_cons, List.foldl_nil]
        rw [digitChar_toNat h]
        omega
      · intro c hc
        simp only [List.mem_singleton] at hc
        subst hc
        exact digitChar_isDigit h
    · rw [natDec, dif_neg h]
      obtain ⟨ih1, ih2, ih3⟩ := ih (n / 10) (Nat.div_lt_self (by omega) (by omega))
      refine ⟨?_, ?_, by simp⟩
      · rw [digitsToNat_append, ih1, digitChar_toNat (by omega : n % 10 < 10)]
        omega
      · intro c hc
        rcases List.mem_append.mp hc with h1 | h2
        · exact ih2 c h1
        · simp only [List.mem_singleton] at h2
          subst h2
          exact digitChar_isDigit (by omega)

lemma pyIntDigits_natDec (m : Nat) : pyIntDigits (natDec m) = some (m : Int) := by
  obtain ⟨h1, h2, h3⟩ := natDec_spec m
  have h4 : (natDec m).isEmpty = false := by
    cases hnd : natDec m with
    | nil => exact absurd hnd h3
    | cons _ _ => rfl
  unfold pyIntDigits
  rw [if_pos]
  · rw [h1]
  · rw [Bool.and_eq_true]
    exact ⟨by rw [h4]; rfl, List.all_eq_true.mpr h2⟩

lemma intStr_data_neg {n : Int} (hn : n < 0) : (intStr n).data = '-' :: natDec n.natAbs := by
  simp [intStr, hn]

lemma intStr_data_nonneg {n : Int} (hn : ¬ n < 0) : (intStr n).data = natDec n.natAbs := by
  simp [intStr, hn]

lemma pyInt_intStr (n : Int) : pyInt (intStr n) = some n := by
  by_cases hn : n < 0
  · rw [pyInt, intStr_data_neg hn]
    simp only [List.head?_cons, List.tail_cons, if_pos rfl]
    rw [pyIntDigits_natDec]
    simp only [Option.map_some']
    rw [Int.ofNat_natAbs_of_nonpos (by omega), neg_neg]
    simp
  · obtain ⟨-, h2, h3⟩ := natDec_spec n.natAbs
    obtain ⟨c, rest, hd⟩ : ∃ c rest, natDec n.natAbs = c :: rest := by
      cases hnd : natDec n.natAbs with
      | nil => exact absurd hnd h3
      | cons c rest => exact ⟨c, rest, rfl⟩
    have hcd : c.isDigit = true := h2 c (by rw [hd]; exact List.mem_cons_self _ _)
    rw [pyInt, intStr_data_nonneg hn, hd]
    rw [if_neg (by simpa using isDigit_ne_minus hcd),
      if_neg (by simpa using isDigit_ne_plus hcd)]
    rw [← hd, pyIntDigits_natDec, Int.natAbs_of_nonneg (by omega)]

lemma intStr_chars (n : Int) : ∀ c ∈ (intStr n).data, c.isWhitespace = false := by
  intro c hc
  obtain ⟨-, h2, -⟩ := natDec_spec n.natAbs
  by_cases hn : n < 0
  · rw [intStr_data_neg hn] at hc
    rcases List.mem_cons.mp hc with rfl | hmem
    · decide
    · exact isDigit_not_ws (h2 c hmem)
  · rw [intStr_data_nonneg hn] at hc
    exact isDigit_not_ws (h2 c hc)

lemma intStr_length (n : Int) : (intStr n).length ≠ 0 := by
  obtain ⟨-, -, h3⟩ := natDec_spec n.natAbs
  by_cases hn : n < 0
  · simp [String.length, intStr_data_neg hn]
  · simp only [String.length, intStr_data_nonneg hn]
    simpa [List.length_eq_zero] using h3

/-! Strip lemmas -/

lemma dropWhile_head_not {p : Char → Bool} :
    ∀ (xs : List Char) (c : Char) (rest : List Char),
      xs.dropWhile p = c :: rest → p c = false := by
  intro xs
  induction xs with
  | nil => intro c rest h; simp [List.dropWhile] at h
  | cons x xs ih =>
    intro c rest h
    rw [List.dropWhile_cons] at h
    by_cases hp : p x
    · rw [if_pos hp] at h
      exact ih c rest h
    · rw [if_neg hp] at h
      injection h with h1 _
      subst h1
      simpa using hp

lemma stripEnd_cons_shape (c : Char) (rest : List Char) :
    stripEnd (c :: rest) = [] ∨ ∃ r, stripEnd (c :: rest) = c :: r := by
  rw [stripEnd]
  cases h : stripEnd rest with
  | nil =>
    by_cases hw : c.isWhitespace
    · left; simp [hw]
    · right; exact ⟨[], by simp [hw]⟩
  | cons y ys => right; exact ⟨y :: ys, rfl⟩

lemma stripEnd_cons (c : Char) (rest : List Char) :
    stripEnd (c :: rest)
      = match stripEnd rest with
        | [] => if c.isWhitespace then [] else [c]
        | r => c :: r := rfl

lemma stripEnd_idem : ∀ l : List Char, stripEnd (stripEnd l) = stripEnd l := by
  intro l
  induction l with
  | nil => rfl
  | cons c rest ih =>
    rw [stripEnd_cons]
    cases h : stripEnd rest with
    | nil =>
      by_cases hw : c.isWhitespace
      · simp only [hw, if_true]
        rfl
      · simp only [hw, Bool.false_eq_true, if_false]
        rw [stripEnd_cons]
        simp [stripEnd, hw]
    | cons y ys =>
      show stripEnd (c :: y :: ys) = c :: y :: ys
      rw [stripEnd_cons]
      have hyy : stripEnd (y :: ys) = y :: ys := by
        rw [← h]
        exact ih
      rw [hyy]

lemma dropWhile_of_all {p : Char → Bool} :
    ∀ l : List Char, (∀ c ∈ l, p c = false) → l.dropWhile p = l := by
  intro l h
  cases l with
  | nil => rfl
  | cons c rest =>
    rw [List.dropWhile_cons, if_neg (by simp [h c (List.mem_cons_self _ _)])]

lemma stripEnd_of_all : ∀ l : List Char, (∀ c ∈ l, c.isWhitespace = false) → stripEnd l = l := by
  intro l
  induction l with
  | nil => intro _; rfl
  | cons c rest ih =>
    intro h
    rw [stripEnd, ih (fun x hx => h x (List.mem_cons_of_mem _ hx))]
    cases rest with
    | nil => simp [h c (List.mem_cons_self _ _)]
    | cons y ys => rfl

lemma string_mk_data (s : String) : (⟨s.data⟩ : String) = s := by
  cases s
  rfl

lemma pyStrip_of_no_ws (s : String) (h : ∀ c ∈ s.data, c.isWhitespace = false) :
    pyStrip s = s := by
  rw [pyStrip, dropWhile_of_all s.data h, stripEnd_of_all s.data h, string_mk_data]

lemma pyStrip_idem (s : String) : pyStrip (pyStrip s) = pyStrip s := by
  rw [pyStrip, pyStrip]
  have hd : (List.dropWhile Char.isWhitespace
      (stripEnd (List.dropWhile Char.isWhitespace s.data)))
      = stripEnd (List.dropWhile Char.isWhitespace s.data) := by
    cases hy : List.dropWhile Char.isWhitespace s.data with
    | nil => simp [stripEnd]
    | cons c rest =>
      have hc : c.isWhitespace = false := dropWhile_head_not s.data c rest hy
      rcases stripEnd_cons_shape c rest with he | ⟨r, he⟩
      · simp [he]
      · rw [he, List.dropWhile_cons, if_neg (by simp [hc])]
  simp only [String.data]
  rw [hd, stripEnd_idem]

lemma parse_intStr (w h : Int) : parseOutputSize (intStr w) (intStr h) = .size w h := by
  unfold parseOutputSize
  rw [pyStrip_of_no_ws _ (intStr_chars w), pyStrip_of_no_ws _ (intStr_chars h)]
  rw [if_neg (by push_neg; exact ⟨intStr_length w, intStr_length h⟩)]
  rw [pyInt_intStr, pyInt_intStr]

lemma fmt_name_roundtrip (k : Nat) :
    (FILE_FORMATS.getD
      ((match (FILE_FORMATS.map (·.name)).findIdx?
          (fun nm => nm == (FILE_FORMATS.getD k ⟨"PNG", "png", false⟩).name) with
        | some i => i + 1
        | none => freshUI.fileFormatSelect) - 1) ⟨"PNG", "png", false⟩).name
      = (FILE_FORMATS.getD k ⟨"PNG", "png", false⟩).name := by
  match k with
  | 0 => decide
  | 1 => decide
  | 2 => decide
  | 3 => decide
  | k + 4 =>
    have hin : FILE_FORMATS.getD (k + 4) ⟨"PNG", "png", false⟩ = ⟨"PNG", "png", false⟩ := by
      apply List.getD_eq_default
      have h4 : FILE_FORMATS.length = 4 := rfl
      omega
    rw [hin]
    decide

lemma readProps_inputText (env : Env) (f : String) (r : SourceRow) :
    (readInputMovieProperties env f r).inputText = r.inputText := by
  unfold readInputMovieProperties
  split
  · rfl
  · split
    · rfl
    · split <;> rfl

lemma setTexts_map : ∀ (texts : List String) (rows : List SourceRow),
    texts.length = rows.length →
    (setTexts texts rows).map (·.inputText) = texts := by
  intro texts
  induction texts with
  | nil => intro rows _; rfl
  | cons t ts ih =>
    intro rows hlen
    cases rows with
    | nil => simp at hlen
    | cons r rs =>
      show ({ r with inputText := t } : SourceRow).inputText
          :: (setTexts ts rs).map (·.inputText) = t :: ts
      rw [ih rs (by simpa using hlen)]

lemma resizeRows_length (rows : List SourceRow) (n : Nat) : (resizeRows rows n).length = n := by
  simp [resizeRows]
  omega

lemma map_inputText_readProps (env : Env) (f : String) (rows : List SourceRow) :
    (rows.map (fun r => readInputMovieProperties env f r)).map (·.inputText)
      = rows.map (·.inputText) := by
  induction rows with
  | nil => rfl
  | cons r rs ih => simp [readProps_inputText, ih]

/-- C9 (amended): saving and loading back into the launch-fresh UI state
reproduces every job-specification field exactly (provided the saved size
was not the non-numeric failure sentinel, which validation refuses
anyway).  Loading into an arbitrary UI state does NOT reproduce the
`None` output size — see the counterexample. -/
theorem c9_settings_roundtrip :
    ∀ (env : Env) (s : UIState),
      parseOutputSize s.widthText s.heightText ≠ .badSize →
      saveSettings (loadSettings env (saveSettings s) freshUI) = saveSettings s := by
  intro env s hbad
  unfold saveSettings loadSettings
  simp only [Settings.mk.injEq]
  refine ⟨?_, trivial, ?_, trivial, pyStrip_idem _, trivial, fmt_name_roundtrip _⟩
  · rw [map_inputText_readProps, setTexts_map _ _ (resizeRows_length _ _).symm]
  · cases hp : parseOutputSize s.widthText s.heightText with
    | noSize => rfl
    | badSize => exact absurd hp hbad
    | size w h => exact parse_intStr w h

/-- C9 witness: round trip of the fresh state itself. -/
theorem c9_witness :
    saveSettings (loadSettings allTrueEnv (saveSettings freshUI) freshUI)
      = saveSettings freshUI :=
  c9_settings_roundtrip allTrueEnv freshUI (by decide)

/-- A UI state whose width/height fields hold stale values. -/
def staleUI : UIState := { freshUI with widthText := "100", heightText := "100" }

/-- C9 counterexample: loading a settings file whose output size is `None`
into a UI whose size fields are non-empty leaves those fields unchanged,
so the reloaded specification's output size is `(100, 100)` instead of the
saved `None` — the round trip does not reproduce the `None` case for every
load context. -/
theorem c9_counterexample :
    (saveSettings (loadSettings allTrueEnv (saveSettings freshUI) staleUI)).outputSize
      = .size 100 100
    ∧ (saveSettings freshUI).outputSize = .noSize :=
  ⟨rfl, rfl⟩

/-! ### Claim C10 -/

lemma pyBool_eq_beq : ∀ o : Option Bool, pyBool o = (o == some true) := by
  rintro (_ | b)
  · rfl
  · cases b <;> rfl

lemma snapshot_any_audio (rows : List SourceRow) :
    (snapshotSources rows).any (·.hasAudioStream)
      = rows.any (fun r => r.hasAudioStream == some true) := by
  induction rows with
  | nil => rfl
  | cons r rest ih =>
    simp only [snapshotSources, List.map_cons, List.any_cons] at ih ⊢
    rw [pyBool_eq_beq, ih]

/-- C10: a source with unknown audio (`hasAudioStream = None`) is
snapshotted as `false` by the boolean coercion, contributes nothing to the
job-level audio determination, and a source list with no positively-known
audio never enables the synthetic silence input. -/
theorem c10_unknown_audio :
    pyBool none = false
    ∧ (∀ (rows : List SourceRow) (isMovie : Bool),
        jobHasAudioStream isMovie (snapshotSources rows)
          = (isMovie && rows.any (fun r => r.hasAudioStream == some true)))
    ∧ (∀ (rows : List SourceRow) (isMovie : Bool),
        (∀ r ∈ rows, r.hasAudioStream ≠ some true) →
        jobNeedNullAudioSrc isMovie (snapshotSources rows) = false) := by
  refine ⟨rfl, ?_, ?_⟩
  · intro rows isMovie
    rw [jobHasAudioStream, snapshot_any_audio]
  · intro rows isMovie h
    have hany : (snapshotSources rows).any (·.hasAudioStream) = false := by
      rw [snapshot_any_audio]
      simp only [List.any_eq_false]
      intro r hr
      simpa using h r hr
    simp [jobNeedNullAudioSrc, jobHasAudioStream, hany]

/-! ### Claim C3 -/

lemma buildCmd_no_audio (ff : String) (srcs : List Src) (dir : String) (w h : Int)
    (name : String) (digits : Nat) (ext : String) (isMovie : Bool)
    (hA : jobHasAudioStream isMovie srcs = false) :
    buildCmd ff srcs dir w h name digits ext isMovie
      = buildCmdNoAudio ff srcs dir w h name digits ext := by
  have hN : jobNeedNullAudioSrc isMovie srcs = false := by
    simp [jobNeedNullAudioSrc, hA]
  simp [buildCmd, buildCmdNoAudio, hA, hN]

/-- C3: the job-level audio flag is true iff the output format is a movie
format and some source has audio; the builder determines the movie bit
from the extension exactly as the format table says; and when the flag is
false the entire built command has the no-audio shape: no synthetic
silence input, a video-only concat leg, and no audio map argument. -/
theorem c3_job_audio :
    ∀ (fmt : FileFormat) (srcs : List Src) (ff dir name : String) (w h : Int) (digits : Nat),
      fmt ∈ FILE_FORMATS →
      (jobHasAudioStream fmt.is_movie srcs = true
        ↔ fmt.is_movie = true ∧ ∃ s ∈ srcs, s.hasAudioStream = true)
      ∧ isFileExtensionForMovie fmt.extension = some fmt.is_movie
      ∧ ((fmt.is_movie && srcs.any (·.hasAudioStream)) = false →
          convertThreadCmd ff srcs dir (some (w, h)) name digits fmt.extension
            = .ok (buildCmdNoAudio ff srcs dir w h name digits fmt.extension)) := by
  intro fmt srcs ff dir name w h digits hmem
  refine ⟨?_, formats_lookup fmt hmem, ?_⟩
  · simp [jobHasAudioStream, List.any_eq_true]
  · intro hfalse
    simp only [convertThreadCmd, formats_lookup fmt hmem]
    rw [buildCmd_no_audio ff srcs dir w h name digits fmt.extension fmt.is_movie hfalse]

/-- C3 witness: a single silent source in MP4 format — job audio is false
and the command has the no-audio shape. -/
theorem c3_witness :
    (jobHasAudioStream (true : Bool) [(⟨"a.mov", false⟩ : Src)] = true
      ↔ (true : Bool) = true ∧ ∃ s ∈ [(⟨"a.mov", false⟩ : Src)], s.hasAudioStream = true)
    ∧ isFileExtensionForMovie "mp4" = some true
    ∧ convertThreadCmd "ffmpeg" [⟨"a.mov", false⟩] "out" (some (640, 480)) "frame" 4 "mp4"
        = .ok (buildCmdNoAudio "ffmpeg" [⟨"a.mov", false⟩] "out" 640 480 "frame" 4 "mp4") :=
  ⟨(c3_job_audio ⟨"MP4", "mp4", true⟩ [⟨"a.mov", false⟩] "ffmpeg" "out" "frame" 640 480 4
      (by decide)).1,
   (c3_job_audio ⟨"MP4", "mp4", true⟩ [⟨"a.mov", false⟩] "ffmpeg" "out" "frame" 640 480 4
      (by decide)).2.1,
   (c3_job_audio ⟨"MP4", "mp4", true⟩ [⟨"a.mov", false⟩] "ffmpeg" "out" "frame" 640 480 4
      (by decide)).2.2 (by decide)⟩

/-! ### Claim C4 -/

lemma concatAudioIndices_count (srcs : List Src) (nullIdx : Nat) :
    ∀ i, i + srcs.length ≤ nullIdx →
    (concatAudioIndices nullIdx srcs i).count nullIdx
      = (srcs.filter (fun s => !s.hasAudioStream)).length := by
  induction srcs with
  | nil => intro i _; rfl
  | cons s rest ih =>
    intro i hle
    simp only [concatAudioIndices, List.length_cons] at hle ⊢
    by_cases hs : s.hasAudioStream
    · have hne : i ≠ nullIdx := by omega
      simp [hs, List.count_cons, hne, List.filter_cons, ih (i + 1) (by omega)]
    · have hb : s.hasAudioStream = false := by simpa using hs
      simp [hb, List.count_cons, List.filter_cons, ih (i + 1) (by omega)]

lemma buildCmd_concat_silence (ff : String) (srcs : List Src) (dir : String) (w h : Int)
    (name : String) (digits : Nat) (ext : String) (isMovie : Bool)
    (hm : 1 < srcs.length) (hA : jobHasAudioStream isMovie srcs = true)
    (hN : jobNeedNullAudioSrc isMovie srcs = true) (hext : ext = "mp4" ∨ ext = "avi") :
    buildCmd ff srcs dir w h name digits ext isMovie
      = buildCmdConcatSilence ff srcs dir w h name ext := by
  rcases hext with rfl | rfl <;> simp [buildCmd, buildCmdConcatSilence, hA, hN, hm]

/-- C4 (amended with the movie-format proviso): for a movie-format job
with at least two sources of which exactly one lacks audio, the built
command has the concat-with-silence shape — the single synthetic silence
block sits directly after the per-source inputs — and the silence input's
stream index appears exactly once in the concat clause's audio index
list. -/
theorem c4_silence_input :
    ∀ (fmt : FileFormat) (srcs : List Src) (ff dir name : String) (w h : Int) (digits : Nat),
      fmt ∈ FILE_FORMATS → fmt.is_movie = true → 2 ≤ srcs.length →
      (srcs.filter (fun s => !s.hasAudioStream)).length = 1 →
      convertThreadCmd ff srcs dir (some (w, h)) name digits fmt.extension
        = .ok (buildCmdConcatSilence ff srcs dir w h name fmt.extension)
      ∧ (concatAudioIndices srcs.length srcs 0).count srcs.length = 1 := by
  intro fmt srcs ff dir name w h digits hmem hmv hlen hfil
  have hany : srcs.any (·.hasAudioStream) = true := by
    by_contra hc
    have hall : ∀ s ∈ srcs, s.hasAudioStream = false := by
      rw [Bool.not_eq_true, List.any_eq_false] at hc
      intro s hs
      simpa using hc s hs
    have heq : srcs.filter (fun s => !s.hasAudioStream) = srcs := by
      rw [List.filter_eq_self]
      intro s hs
      simp [hall s hs]
    rw [heq] at hfil
    omega
  have hsome : srcs.any (fun s => !s.hasAudioStream) = true := by
    have hne : srcs.filter (fun s => !s.hasAudioStream) ≠ [] := by
      intro he
      rw [he] at hfil
      simp at hfil
    obtain ⟨x, hx⟩ := List.exists_mem_of_ne_nil _ hne
    obtain ⟨hxm, hxp⟩ := List.mem_filter.mp hx
    exact List.any_eq_true.mpr ⟨x, hxm, hxp⟩
  have hA : jobHasAudioStream fmt.is_movie srcs = true := by
    simp [jobHasAudioStream, hmv, hany]
  have hN : jobNeedNullAudioSrc fmt.is_movie srcs = true := by
    simp [jobNeedNullAudioSrc, hA, hsome]
  constructor
  · simp only [convertThreadCmd, formats_lookup fmt hmem]
    rw [buildCmd_concat_silence ff srcs dir w h name digits fmt.extension fmt.is_movie
      (by omega) hA hN (movie_ext fmt hmem hmv)]
  · rw [concatAudioIndices_count srcs srcs.length 0 (by omega)]
    exact hfil

/-- C4 witness: two MP4 sources, the second without audio. -/
theorem c4_witness :
    convertThreadCmd "ffmpeg" [⟨"a.mov", true⟩, ⟨"b.mov", false⟩] "out" (some (640, 480))
        "frame" 4 "mp4"
      = .ok (buildCmdConcatSilence "ffmpeg" [⟨"a.mov", true⟩, ⟨"b.mov", false⟩] "out"
          640 480 "frame" "mp4")
    ∧ (concatAudioIndices 2 [⟨"a.mov", true⟩, ⟨"b.mov", false⟩] 0).count 2 = 1 :=
  c4_silence_input ⟨"MP4", "mp4", true⟩ [⟨"a.mov", true⟩, ⟨"b.mov", false⟩] "ffmpeg" "out"
    "frame" 640 480 4 (by decide) rfl (by decide) (by decide)

/-- C4 counterexample: the claim as stated (without the movie-format
condition) fails — for a PNG job with two sources of which one lacks
audio, the built command contains no synthetic silence input at all. -/
theorem c4_counterexample :
    ((convertThreadCmd "ffmpeg" [⟨"a.mov", true⟩, ⟨"b.mov", false⟩] "out" (some (640, 480))
        "frame" 4 "png").toOption.map (fun cmd => cmd.count "anullsrc")) = some 0 :=
  rfl

/-- C10 witness: one source with unknown audio, movie format. -/
theorem c10_witness :
    jobHasAudioStream true (snapshotSources [⟨"a.mov", none, none⟩])
      = (true && [(⟨"a.mov", none, none⟩ : SourceRow)].any (fun r => r.hasAudioStream == some true))
    ∧ jobNeedNullAudioSrc true (snapshotSources [⟨"a.mov", none, none⟩]) = false :=
  ⟨c10_unknown_audio.2.1 [⟨"a.mov", none, none⟩] true,
   c10_unknown_audio.2.2 [⟨"a.mov", none, none⟩] true (by decide)⟩

end ConvertMovie
